import Mathlib

/-!
# A shallow embedding of the BioSim island ecosystem simulation

This file embeds the core of the BioSim simulator (modules `animals.py`,
`landscape.py`, `island.py`) into Lean and proves properties of the embedded
code.

Modelling conventions:

* Python floats are modelled as rationals (`ℚ`).  The transcendental fitness
  formula (`math.exp`) is abstracted: the rational-level model is parametrised
  by an arbitrary function `fitnessOf : Params → ℚ → ℚ → ℚ` standing for the
  positive-weight branch of `Animals.update_fitness`; a separate real-valued
  development (`q_pos`, `q_neg`, `fitnessFormula`) embeds the actual formula
  over `ℝ` and is used for the claims about the formula itself.
* The shared pseudo-random generator is modelled by `Rand`: a stream of
  rational outcomes (consumed by `random.random()` and `random.gauss`) and a
  stream of `Fin 4` outcomes (consumed by `random.choice` over the
  four-element neighbour list), each with a cursor.  Theorems quantify over
  all streams, i.e. over every possible sequence of random draws.
* A Python species is a class carrying a mutable class-level parameter dict;
  here the parameter table (`Params`) is passed explicitly to each operation.
  Which species an animal belongs to is encoded by which population list of a
  cell holds it (the data-model invariant of the source).
* Python exceptions are modelled with `Except String` / an `Option String`
  error component.  Where the source mutates state in place before raising,
  the model returns the partially mutated state together with the error.
-/

namespace BioSim

/-- Species parameter table: the class dict `Animals.parameters`.
`DeltaPhiMax` is `none` when the dict stores Python `None`
(the `Herbivore` default). -/
structure Params where
  w_birth : ℚ
  sigma_birth : ℚ
  beta : ℚ
  eta : ℚ
  a_half : ℚ
  phi_age : ℚ
  w_half : ℚ
  phi_weight : ℚ
  mu : ℚ
  gamma : ℚ
  zeta : ℚ
  xi : ℚ
  omega : ℚ
  F : ℚ
  DeltaPhiMax : Option ℚ
deriving DecidableEq

/-- Default `Herbivore.parameters` from `animals.py`. -/
def herbParams : Params :=
  { w_birth := 8, sigma_birth := 3/2, beta := 9/10, eta := 1/20,
    a_half := 40, phi_age := 3/5, w_half := 10, phi_weight := 1/10,
    mu := 1/4, gamma := 1/5, zeta := 7/2, xi := 6/5,
    omega := 2/5, F := 10, DeltaPhiMax := none }

/-- Default `Carnivore.parameters` from `animals.py`. -/
def carnParams : Params :=
  { w_birth := 6, sigma_birth := 1, beta := 3/4, eta := 1/8,
    a_half := 40, phi_age := 3/10, w_half := 4, phi_weight := 2/5,
    mu := 2/5, gamma := 4/5, zeta := 7/2, xi := 11/10,
    omega := 4/5, F := 50, DeltaPhiMax := some 10 }

/-- The mutable per-animal state: `age`, `weight`, the cached `fitness`
and the remaining `appetite` (`animals.py`, `Animals.__init__`). -/
structure Animal where
  age : ℚ
  weight : ℚ
  fitness : ℚ
  appetite : ℚ
deriving DecidableEq

/-- The shared pseudo-random generator: a stream `q` of outcomes for
`random.random()` / `random.gauss` draws and a stream `choice` of outcomes
for `random.choice` over the four-element neighbour list, with cursors. -/
structure Rand where
  q : ℕ → ℚ
  choice : ℕ → Fin 4
  qi : ℕ
  ci : ℕ

/-- Consume one outcome of the `q` stream (`random.random()` or
`random.gauss`). -/
def Rand.nextQ (r : Rand) : ℚ × Rand :=
  (r.q r.qi, { r with qi := r.qi + 1 })

/-- Consume one outcome of the `choice` stream (`random.choice` on the
neighbour list). -/
def Rand.nextChoice (r : Rand) : Fin 4 × Rand :=
  (r.choice r.ci, { r with ci := r.ci + 1 })

/-- `Animals.update_fitness`: fitness is `0` for non-positive weight and
otherwise given by the sigmoid product, abstracted as `fitnessOf`. -/
def update_fitness (fitnessOf : Params → ℚ → ℚ → ℚ) (p : Params) (a : Animal) : Animal :=
  if a.weight ≤ 0 then { a with fitness := 0 }
  else { a with fitness := fitnessOf p a.age a.weight }

/-- `Animals.regain_appetite`: appetite is reset to the parameter `F`. -/
def regain_appetite (p : Params) (a : Animal) : Animal :=
  { a with appetite := p.F }

/-- `Animals.migrate`: draw once, move iff the draw is below `mu * fitness`. -/
def migrate (p : Params) (a : Animal) (r : Rand) : Bool × Rand :=
  (decide (r.nextQ.1 < p.mu * a.fitness), r.nextQ.2)

/-- `Animals.__init__`: validate the age, always draw the default Gaussian
weight, validate the weight, then compute fitness and appetite.  Validation
failures are the constructor's `ValueError`s; the generator state is
returned alongside (the age check precedes the Gaussian draw). -/
def mkAnimal (fitnessOf : Params → ℚ → ℚ → ℚ) (p : Params)
    (age? weight? : Option ℚ) (r : Rand) : Except String Animal × Rand :=
  let age := age?.getD 0
  if age < 0 ∨ (⌊age⌋ : ℚ) ≠ age then
    (.error "Animal age has to be an integer >= 0", r)
  else
    let weight := weight?.getD r.nextQ.1
    if weight < 0 then
      (.error "Animal weight has to be a positive number", r.nextQ.2)
    else
      let a := update_fitness fitnessOf p
        { age := age, weight := weight, fitness := 0, appetite := p.F }
      (.ok a, r.nextQ.2)

/-- `Animals.gives_birth`: draw the pregnancy coin; on success construct a
newborn (consuming a Gaussian draw, possibly raising), then abort if the
parent is lighter than `zeta * (w_birth + sigma_birth)` or than
`xi * newborn.weight`; otherwise deduct `xi * newborn.weight` from the
parent's weight and recompute its fitness.  The result carries the optional
newborn and the (possibly updated) parent, or the propagated constructor
error. -/
def gives_birth (fitnessOf : Params → ℚ → ℚ → ℚ) (p : Params) (a : Animal)
    (pop_size : ℕ) (r : Rand) : Except String (Option Animal × Animal) × Rand :=
  let preg_prob := min 1 (p.gamma * a.fitness * ((pop_size : ℚ) - 1))
  if r.nextQ.1 < preg_prob then
    match mkAnimal fitnessOf p none none r.nextQ.2 with
    | (.error e, r₂) => (.error e, r₂)
    | (.ok newborn, r₂) =>
      if a.weight < p.zeta * (p.w_birth + p.sigma_birth) then
        (.ok (none, a), r₂)
      else if a.weight < p.xi * newborn.weight then
        (.ok (none, a), r₂)
      else
        let a' := update_fitness fitnessOf p
          { a with weight := a.weight - p.xi * newborn.weight }
        (.ok (some newborn, a'), r₂)
  else
    (.ok (none, a), r.nextQ.2)

/-- The newborn produced by a `gives_birth` outcome (`none` on abort or on a
propagated constructor error). -/
def birthNewborn (res : Except String (Option Animal × Animal)) : Option Animal :=
  match res with
  | .ok (nb, _) => nb
  | .error _ => none

/-- The parent's state after a `gives_birth` outcome.  On a propagated
constructor error the parent has not been mutated yet, so it is returned
unchanged. -/
def birthParent (a : Animal) (res : Except String (Option Animal × Animal)) : Animal :=
  match res with
  | .ok (_, parent) => parent
  | .error _ => a

/-- The weight of the newborn of a `gives_birth` outcome (`0` when there is
none). -/
def birthNewbornWeight (res : Except String (Option Animal × Animal)) : ℚ :=
  match birthNewborn res with
  | some nb => nb.weight
  | none => 0

/-- `Herbivore.herbivore_feeding`: the portion is the fodder when
`0 < fodder < appetite` and the full appetite otherwise; the weight grows by
`beta * portion`, fitness is recomputed, and the portion is returned. -/
def herbivore_feeding (fitnessOf : Params → ℚ → ℚ → ℚ) (p : Params) (a : Animal)
    (landscape_fodder : ℚ) : ℚ × Animal :=
  let portion :=
    if 0 < landscape_fodder ∧ landscape_fodder < a.appetite then landscape_fodder
    else a.appetite
  (portion, update_fitness fitnessOf p { a with weight := a.weight + p.beta * portion })

/-- `Carnivore.carnivore_feeding`: no kill when the carnivore is not strictly
fitter; otherwise the kill probability is `dphi / DeltaPhiMax` when
`0 < dphi < DeltaPhiMax` and `1` otherwise; on a successful draw the portion
is the appetite when `0 < appetite < herb.weight` and the prey's whole weight
otherwise, the appetite is decremented and the weight/fitness updated.
(`DeltaPhiMax` is always a number for the carnivore species; the `none`
branch is unreachable there.) -/
def carnivore_feeding (fitnessOf : Params → ℚ → ℚ → ℚ) (p : Params)
    (carn herb : Animal) (r : Rand) : Bool × Animal × Rand :=
  if carn.fitness ≤ herb.fitness then
    (false, carn, r)
  else
    let dphi := carn.fitness - herb.fitness
    let prob :=
      match p.DeltaPhiMax with
      | some dmax => if 0 < dphi ∧ dphi < dmax then dphi / dmax else 1
      | none => 1
    if r.nextQ.1 < prob then
      let portion :=
        if 0 < carn.appetite ∧ carn.appetite < herb.weight then carn.appetite
        else herb.weight
      let carn' := update_fitness fitnessOf p
        { carn with appetite := carn.appetite - portion,
                    weight := carn.weight + p.beta * portion }
      (true, carn', r.nextQ.2)
    else
      (false, carn, r.nextQ.2)

/-- The four terrain kinds (`landscape.py` subclasses of `Landscape`). -/
inductive Terrain where
  | Lowland
  | Highland
  | Desert
  | Water
deriving DecidableEq

/-- `f_max` of each terrain kind (the `parameters` dict of each subclass). -/
def Terrain.f_max : Terrain → ℚ
  | .Lowland => 800
  | .Highland => 300
  | .Desert => 0
  | .Water => 0

/-- A landscape cell (`Landscape.__init__`): terrain kind, current fodder,
the two live population lists and the two migrant staging lists.
`habitability` of the source is derived: `terrain ≠ Water`. -/
structure Cell where
  terrain : Terrain
  fodder : ℚ
  herb_pop : List Animal
  migrating_herbs : List Animal
  carn_pop : List Animal
  migrating_carns : List Animal
deriving DecidableEq

/-- `Landscape.__init__`'s `habitability` flag. -/
def Cell.habitability (c : Cell) : Bool := c.terrain ≠ Terrain.Water

/-- A fresh cell of the given terrain (`fodder = f_max`, empty populations). -/
def freshCell (t : Terrain) : Cell :=
  { terrain := t, fodder := t.f_max, herb_pop := [], migrating_herbs := [],
    carn_pop := [], migrating_carns := [] }

/-- `Landscape.sort_herbs_by_fitness` restricted to the population list: the
herbivores sorted by fitness, decreasing or increasing.  (Python's stable
`list.sort` is modelled by a stable structural sort; no claim depends on the
order among equal fitness values.) -/
def sort_herbs_by_fitness (decreasing : Bool) (pop : List Animal) : List Animal :=
  if decreasing then List.insertionSort (fun a b => b.fitness ≤ a.fitness) pop
  else List.insertionSort (fun a b => a.fitness ≤ b.fitness) pop

/-- The loop body of `Landscape.herbivores_eating` over an already sorted
list: each herbivore regains its appetite; while fodder remains positive it
feeds and the cell fodder is decremented by the returned portion; the first
herbivore seen with no fodder left stops the scan (Python `break`). -/
def herbsEat (fitnessOf : Params → ℚ → ℚ → ℚ) (p : Params) :
    ℚ → List Animal → ℚ × List Animal
  | fodder, [] => (fodder, [])
  | fodder, h :: rest =>
    let h₁ := regain_appetite p h
    if 0 < fodder then
      let fed := herbivore_feeding fitnessOf p h₁ fodder
      let next := herbsEat fitnessOf p (fodder - fed.1) rest
      (next.1, fed.2 :: next.2)
    else
      (fodder, h₁ :: rest)

/-- `Landscape.herbivores_eating`: sort by decreasing fitness, then run the
feeding scan.  Returns the remaining fodder and the updated population. -/
def herbivores_eating (fitnessOf : Params → ℚ → ℚ → ℚ) (p : Params)
    (fodder : ℚ) (herb_pop : List Animal) : ℚ × List Animal :=
  herbsEat fitnessOf p fodder (sort_herbs_by_fitness true herb_pop)

/-- The inner loop of `Landscape.carnivores_eating`: one carnivore scans the
whole (sorted) herbivore list, attempting a kill on each herbivore in turn;
survivors are collected in order. -/
def carnScan (fitnessOf : Params → ℚ → ℚ → ℚ) (p : Params) :
    Animal → List Animal → Rand → Animal × List Animal × Rand
  | carn, [], r => (carn, [], r)
  | carn, herb :: rest, r =>
    let (killed, carn₁, r₁) := carnivore_feeding fitnessOf p carn herb r
    let (carn₂, survivors, r₂) := carnScan fitnessOf p carn₁ rest r₁
    if killed then (carn₂, survivors, r₂)
    else (carn₂, herb :: survivors, r₂)

/-- The outer loop of `Landscape.carnivores_eating`: each carnivore (in the
already shuffled hunting order) regains its appetite; if herbivores remain
and its appetite is positive it scans the fitness-ascending herbivore list.
The check on the appetite happens once per carnivore, before its scan. -/
def carnsEat (fitnessOf : Params → ℚ → ℚ → ℚ) (pC pH : Params) :
    List Animal → List Animal → Rand → List Animal × List Animal × Rand
  | [], herbs, r => ([], herbs, r)
  | carn :: rest, herbs, r =>
    let carn₁ := regain_appetite pC carn
    if 0 < herbs.length ∧ 0 < carn₁.appetite then
      let sorted := sort_herbs_by_fitness false herbs
      let (carn₂, survivors, r₁) := carnScan fitnessOf pC carn₁ sorted r
      let (rest', herbs', r₂) := carnsEat fitnessOf pC pH rest survivors r₁
      (carn₂ :: rest', herbs', r₂)
    else
      let (rest', herbs', r₂) := carnsEat fitnessOf pC pH rest herbs r
      (carn₁ :: rest', herbs', r₂)

/-- `Landscape.carnivores_eating`, taking the carnivore population already in
its shuffled hunting order (`random.shuffle` produces an arbitrary
permutation of `carn_pop`; the claims hold for every order, so the order is
universally quantified where it matters). -/
def carnivores_eating (fitnessOf : Params → ℚ → ℚ → ℚ) (pC pH : Params)
    (shuffled_carn_pop herb_pop : List Animal) (r : Rand) :
    List Animal × List Animal × Rand :=
  carnsEat fitnessOf pC pH shuffled_carn_pop herb_pop r

/-- The `newborn_pop` helper of `Landscape.reproduction`: the snapshot
population size is the list length; each parent attempts one birth; newborns
are collected.  The updated parents and the newborn list are both returned
(Python mutates the parents in place). -/
def newbornPop (fitnessOf : Params → ℚ → ℚ → ℚ) (p : Params) (pop_size : ℕ) :
    List Animal → Rand → Except String (List Animal × List Animal) × Rand
  | [], r => (.ok ([], []), r)
  | parent :: rest, r =>
    match gives_birth fitnessOf p parent pop_size r with
    | (.error e, r₁) => (.error e, r₁)
    | (.ok (nb, parent'), r₁) =>
      match newbornPop fitnessOf p pop_size rest r₁ with
      | (.error e, r₂) => (.error e, r₂)
      | (.ok (rest', newborns), r₂) =>
        (.ok (parent' :: rest',
          (match nb with | some n => n :: newborns | none => newborns)), r₂)

/-- `Landscape.reproduction` for one species population: the population is
extended with the newborns produced against the snapshot size. -/
def reproduction_pop (fitnessOf : Params → ℚ → ℚ → ℚ) (p : Params)
    (pop : List Animal) (r : Rand) : Except String (List Animal) × Rand :=
  match newbornPop fitnessOf p pop.length pop r with
  | (.error e, r₁) => (.error e, r₁)
  | (.ok (parents, newborns), r₁) => (.ok (parents ++ newborns), r₁)

/-- `Landscape.animal_migration` for one species list: every animal draws its
migration coin in list order; migrators and stayers are collected in order.
Returns `(migrators, stayers, generator)`. -/
def splitMigrators (p : Params) :
    List Animal → Rand → List Animal × List Animal × Rand
  | [], r => ([], [], r)
  | a :: rest, r =>
    let br := migrate p a r
    let next := splitMigrators p rest br.2
    if br.1 then (a :: next.1, next.2.1, next.2.2)
    else (next.1, a :: next.2.1, next.2.2)

/-- Append an animal to a cell's incoming herbivore list
(`Landscape.register_migrants` on a `Herbivore`, and the water-rejection
branch `cell.migrating_herbs.append(herb)` of `Island.island_migration`). -/
def addMigH (c : Cell) (a : Animal) : Cell :=
  { c with migrating_herbs := c.migrating_herbs ++ [a] }

/-- Append an animal to a cell's incoming carnivore list
(`Landscape.register_migrants` on a `Carnivore`, and the water-rejection
branch of `Island.island_migration`). -/
def addMigC (c : Cell) (a : Animal) : Cell :=
  { c with migrating_carns := c.migrating_carns ++ [a] }

/-- `Landscape.add_migraters_to_pop`: both incoming lists are appended onto
the live lists and cleared. -/
def add_migraters_to_pop (c : Cell) : Cell :=
  { c with herb_pop := c.herb_pop ++ c.migrating_herbs, migrating_herbs := [],
           carn_pop := c.carn_pop ++ c.migrating_carns, migrating_carns := [] }

/-! ## The island (`island.py`)

`Island.map` is a Python dict from 1-indexed `(row, column)` pairs to cell
objects.  It is modelled as the list of its keys in insertion (row-major)
order together with a total function from locations to cells; updating an
entry overrides the function at that key.  The key list of a dict has no
duplicates, which theorems assume as `locs.Nodup`. -/

/-- A grid coordinate `(row, column)`. -/
abbrev Loc := ℤ × ℤ

/-- The value component of `Island.map`. -/
abbrev IslandMap := Loc → Cell

/-- Overwrite the cell stored at a location (an in-place mutation of the
dict entry's object in the source). -/
def setCell (m : IslandMap) (loc : Loc) (c : Cell) : IslandMap :=
  fun l => if l = loc then c else m l

/-- The four neighbour coordinates in the order `island_migration` builds its
`neighbours` list: up, down, right, left. -/
def neighboursOf (loc : Loc) : Fin 4 → Loc :=
  ![(loc.1 - 1, loc.2), (loc.1 + 1, loc.2), (loc.1, loc.2 + 1), (loc.1, loc.2 - 1)]

/-- Place one emigrant from `origin`: `random.choice` picks one of the four
neighbours; if the chosen cell is water the animal is appended to the origin
cell's own incoming list, otherwise it is registered with the chosen cell.
`reg` is `addMigH` for the herbivore loop and `addMigC` for the carnivore
loop (`register_migrants` dispatches on the migrator's class). -/
def sendMigrant (reg : Cell → Animal → Cell) (m : IslandMap) (origin : Loc)
    (a : Animal) (r : Rand) : IslandMap × Rand :=
  let nb := neighboursOf origin r.nextChoice.1
  if (m nb).terrain = Terrain.Water then
    (setCell m origin (reg (m origin) a), r.nextChoice.2)
  else
    (setCell m nb (reg (m nb) a), r.nextChoice.2)

/-- Place a list of emigrants one after the other. -/
def sendMigrants (reg : Cell → Animal → Cell) (origin : Loc) :
    IslandMap → List Animal → Rand → IslandMap × Rand
  | m, [], r => (m, r)
  | m, a :: rest, r =>
    let (m₁, r₁) := sendMigrant reg m origin a r
    sendMigrants reg origin m₁ rest r₁

/-- The staging body of `Island.island_migration` for one location: water
cells are skipped; otherwise the cell's `animal_migration` splits both live
populations (stayers are written back), and each migrator is sent to a
randomly chosen neighbour (herbivores first, then carnivores). -/
def stageCell (pH pC : Params) (m : IslandMap) (loc : Loc) (r : Rand) :
    IslandMap × Rand :=
  if (m loc).terrain = Terrain.Water then (m, r)
  else
    let sH := splitMigrators pH (m loc).herb_pop r
    let sC := splitMigrators pC (m loc).carn_pop sH.2.2
    let m₁ := setCell m loc { m loc with herb_pop := sH.2.1, carn_pop := sC.2.1 }
    let tH := sendMigrants addMigH loc m₁ sH.1 sC.2.2
    sendMigrants addMigC loc tH.1 sC.1 tH.2

/-- Phase 1 of `Island.island_migration`: stage every cell, in map
(insertion) order. -/
def stageLoop (pH pC : Params) : List Loc → IslandMap → Rand → IslandMap × Rand
  | [], m, r => (m, r)
  | loc :: rest, m, r =>
    let s := stageCell pH pC m loc r
    stageLoop pH pC rest s.1 s.2

/-- The commit body of `Island.island_migration` for one location: water
cells are skipped; otherwise the incoming lists are merged into the live
populations. -/
def commitCell (m : IslandMap) (loc : Loc) : IslandMap :=
  if (m loc).terrain = Terrain.Water then m
  else setCell m loc (add_migraters_to_pop (m loc))

/-- Phase 2 of `Island.island_migration`: commit every cell. -/
def commitLoop : List Loc → IslandMap → IslandMap
  | [], m => m
  | loc :: rest, m => commitLoop rest (commitCell m loc)

/-- `Island.island_migration`: stage all cells, then commit all cells. -/
def island_migration (pH pC : Params) (locs : List Loc) (m : IslandMap)
    (r : Rand) : IslandMap × Rand :=
  let s := stageLoop pH pC locs m r
  (commitLoop locs s.1, s.2)

/-- `Island.get_number_of_herbs`: the herbivores live on the island. -/
def get_number_of_herbs (locs : List Loc) (m : IslandMap) : ℕ :=
  (locs.map fun l => (m l).herb_pop.length).sum

/-- `Island.get_number_of_carns`: the carnivores live on the island. -/
def get_number_of_carns (locs : List Loc) (m : IslandMap) : ℕ :=
  (locs.map fun l => (m l).carn_pop.length).sum

/-- Herbivores of a cell including those staged in its incoming list. -/
def cellHerbCount (c : Cell) : ℕ := c.herb_pop.length + c.migrating_herbs.length

/-- Carnivores of a cell including those staged in its incoming list. -/
def cellCarnCount (c : Cell) : ℕ := c.carn_pop.length + c.migrating_carns.length

/-- Island-wide herbivore count, staged migrants included. -/
def totalHerbCount (locs : List Loc) (m : IslandMap) : ℕ :=
  (locs.map fun l => cellHerbCount (m l)).sum

/-- Island-wide carnivore count, staged migrants included. -/
def totalCarnCount (locs : List Loc) (m : IslandMap) : ℕ :=
  (locs.map fun l => cellCarnCount (m l)).sum

/-! ## Population placement (`Island.place_population`,
`Landscape.add_population`) -/

/-- One entry of the `'pop'` list of a placement record: a species tag and
optional age and weight (`None` selects the defaults). -/
structure PopRecord where
  species : String
  age : Option ℚ
  weight : Option ℚ

/-- One placement record: a location and its individuals. -/
structure PopPlacement where
  loc : Loc
  pop : List PopRecord

/-- The per-animal loop of `Landscape.add_population`: each record is
dispatched on its species tag and the constructed animal appended to the
matching live list; an unknown tag or a constructor error stops the loop,
keeping the animals appended so far (the Python exception propagates after
the in-place appends). -/
def addPopLoop (fitnessOf : Params → ℚ → ℚ → ℚ) (pH pC : Params) :
    Cell → List PopRecord → Rand → Cell × Rand × Option String
  | c, [], r => (c, r, none)
  | c, rec :: rest, r =>
    if rec.species = "Herbivore" then
      match mkAnimal fitnessOf pH rec.age rec.weight r with
      | (.error e, r₁) => (c, r₁, some e)
      | (.ok a, r₁) =>
        addPopLoop fitnessOf pH pC { c with herb_pop := c.herb_pop ++ [a] } rest r₁
    else if rec.species = "Carnivore" then
      match mkAnimal fitnessOf pC rec.age rec.weight r with
      | (.error e, r₁) => (c, r₁, some e)
      | (.ok a, r₁) =>
        addPopLoop fitnessOf pH pC { c with carn_pop := c.carn_pop ++ [a] } rest r₁
    else
      (c, r, some "Species must be either Herbivore or Carnivore")

/-- `Landscape.add_population`: rejected outright on water, otherwise the
per-animal loop runs. -/
def add_population (fitnessOf : Params → ℚ → ℚ → ℚ) (pH pC : Params)
    (c : Cell) (animals : List PopRecord) (r : Rand) : Cell × Rand × Option String :=
  if c.habitability then addPopLoop fitnessOf pH pC c animals r
  else (c, r, some "Population cannot be placed in water")

/-- `Island.place_population`: each record's location must be a key of the
map; the cell's `add_population` then runs and the (possibly partially)
updated cell is written back; the first error stops the call, keeping all
mutations made so far. -/
def place_population (fitnessOf : Params → ℚ → ℚ → ℚ) (pH pC : Params)
    (locs : List Loc) :
    IslandMap → List PopPlacement → Rand → IslandMap × Rand × Option String
  | m, [], r => (m, r, none)
  | m, pl :: rest, r =>
    if pl.loc ∈ locs then
      let res := add_population fitnessOf pH pC (m pl.loc) pl.pop r
      let m₁ := setCell m pl.loc res.1
      match res.2.2 with
      | some e => (m₁, res.2.1, some e)
      | none => place_population fitnessOf pH pC locs m₁ rest res.2.1
    else
      (m, r, some "The stated location is outside the map boundaries")

/-- The number of `'Herbivore'` records in a placement call. -/
def herbRecordCount (pls : List PopPlacement) : ℕ :=
  (pls.map (fun pl => (pl.pop.filter (fun pr => pr.species = "Herbivore")).length)).sum

/-- The number of `'Carnivore'` records in a placement call. -/
def carnRecordCount (pls : List PopPlacement) : ℕ :=
  (pls.map (fun pl => (pl.pop.filter (fun pr => pr.species = "Carnivore")).length)).sum

/-- The demo island with its Lowland centre cell still empty. -/
def emptyDemoMap : IslandMap :=
  fun l => if l = ((2 : ℤ), (2 : ℤ)) then freshCell .Lowland else freshCell .Water

/-! ## The fitness formula over the reals (`Animals.update_fitness`)

The rational-level model abstracts the sigmoid product as `fitnessOf`; here
the actual formula with `math.exp` is embedded over `ℝ`. -/

/-- `q_pos` of `Animals.update_fitness`. -/
noncomputable def q_pos (phi x x_half : ℝ) : ℝ :=
  1 / (1 + Real.exp (phi * (x - x_half)))

/-- `q_neg` of `Animals.update_fitness`. -/
noncomputable def q_neg (phi x x_half : ℝ) : ℝ :=
  1 / (1 + Real.exp (-1 * phi * (x - x_half)))

/-- The fitness value computed by `Animals.update_fitness`: `0` for
non-positive weight, otherwise the product of the two sigmoids. -/
noncomputable def fitnessFormula (a_half phi_age w_half phi_weight age weight : ℝ) : ℝ :=
  if weight ≤ 0 then 0
  else q_pos phi_age age a_half * q_neg phi_weight weight w_half

/-! ## Parameter validation (`Animals.set_parameters`) -/

/-- The keys of both species' `parameters` dicts (the herbivore dict also
holds the key `DeltaPhiMax`, with value `None`). -/
def paramKeys : List String :=
  ["w_birth", "sigma_birth", "beta", "eta", "a_half", "phi_age", "w_half",
   "phi_weight", "mu", "gamma", "zeta", "xi", "omega", "F", "DeltaPhiMax"]

/-- The validation loop of `Animals.set_parameters`: unknown keys fail;
`DeltaPhiMax` is skipped without any check when the current value is `None`
and must be positive otherwise; `eta` must be at most 1; every other value
must be non-negative.  Returns the first error, if any. -/
def checkParams (cur : Params) : List (String × ℚ) → Option String
  | [] => none
  | (k, v) :: rest =>
    if k ∉ paramKeys then some ("Invalid parameter name: " ++ k)
    else if k = "DeltaPhiMax" then
      match cur.DeltaPhiMax with
      | none => checkParams cur rest
      | some _ =>
        if v ≤ 0 then some "DeltaPhiMax must be strictly positive!"
        else checkParams cur rest
    else if k = "eta" then
      if 1 < v then some "Eta must be <= 1 !" else checkParams cur rest
    else if v < 0 then some "All parameter values need to be positive"
    else checkParams cur rest

/-- Store one key/value pair into the parameter table (one entry of the
final `cls.parameters.update(new_params)`). -/
def applyParam (p : Params) (k : String) (v : ℚ) : Params :=
  if k = "w_birth" then { p with w_birth := v }
  else if k = "sigma_birth" then { p with sigma_birth := v }
  else if k = "beta" then { p with beta := v }
  else if k = "eta" then { p with eta := v }
  else if k = "a_half" then { p with a_half := v }
  else if k = "phi_age" then { p with phi_age := v }
  else if k = "w_half" then { p with w_half := v }
  else if k = "phi_weight" then { p with phi_weight := v }
  else if k = "mu" then { p with mu := v }
  else if k = "gamma" then { p with gamma := v }
  else if k = "zeta" then { p with zeta := v }
  else if k = "xi" then { p with xi := v }
  else if k = "omega" then { p with omega := v }
  else if k = "F" then { p with F := v }
  else if k = "DeltaPhiMax" then { p with DeltaPhiMax := some v }
  else p

/-- `Animals.set_parameters`: run the validation loop over the update; if no
check fails, every supplied pair is stored into the table. -/
def set_parameters (cur : Params) (new_params : List (String × ℚ)) :
    Except String Params :=
  match checkParams cur new_params with
  | some e => .error e
  | none => .ok (new_params.foldl (fun p kv => applyParam p kv.1 kv.2) cur)

/-- A concrete deterministic generator for witnesses: both streams constant. -/
def zeroRand : Rand :=
  { q := fun _ => 0, choice := fun _ => 0, qi := 0, ci := 0 }

/-- An integer-valued parameter table used by concrete witnesses (kernel
reduction cannot evaluate non-integer rational literals). -/
def intParams : Params :=
  { w_birth := 8, sigma_birth := 2, beta := 1, eta := 1,
    a_half := 40, phi_age := 1, w_half := 10, phi_weight := 1,
    mu := 1, gamma := 1, zeta := 3, xi := 1,
    omega := 1, F := 10, DeltaPhiMax := some 10 }

/-- The key list of the 3x3 demo island `WWW / WLW / WWW` in the row-major
insertion order `Island.createmap` produces. -/
def demoLocs : List Loc :=
  [(1, 1), (1, 2), (1, 3), (2, 1), (2, 2), (2, 3), (3, 1), (3, 2), (3, 3)]

/-- The populated Lowland cell of the demo island. -/
def demoCell : Cell :=
  { terrain := .Lowland, fodder := 800,
    herb_pop := [⟨5, 20, 1, 10⟩, ⟨3, 15, 1, 10⟩], migrating_herbs := [],
    carn_pop := [⟨4, 12, 1, 50⟩], migrating_carns := [] }

/-- The demo island map: Lowland at `(2,2)`, water everywhere else. -/
def demoMap : IslandMap :=
  fun l => if l = ((2 : ℤ), (2 : ℤ)) then demoCell else freshCell .Water

/-! ## Basic lemmas about the animal operations -/

@[simp]
theorem update_fitness_age (fitnessOf : Params → ℚ → ℚ → ℚ) (p : Params) (a : Animal) :
    (update_fitness fitnessOf p a).age = a.age := by
  unfold update_fitness; split <;> rfl

@[simp]
theorem update_fitness_weight (fitnessOf : Params → ℚ → ℚ → ℚ) (p : Params) (a : Animal) :
    (update_fitness fitnessOf p a).weight = a.weight := by
  unfold update_fitness; split <;> rfl

@[simp]
theorem update_fitness_appetite (fitnessOf : Params → ℚ → ℚ → ℚ) (p : Params) (a : Animal) :
    (update_fitness fitnessOf p a).appetite = a.appetite := by
  unfold update_fitness; split <;> rfl

@[simp]
theorem regain_appetite_appetite (p : Params) (a : Animal) :
    (regain_appetite p a).appetite = p.F := rfl

/-! ## Claim C5: herbivore feeding -/

/-- C5, counterexample to the claim as stated: with `available_fodder = 0`
the claim asserts a consumption of `0`, but `Herbivore.herbivore_feeding`
consumes the full appetite (here 10), because its branch only diverts to the
fodder when `0 < fodder < appetite`. -/
theorem claim_c5_counterexample :
    (herbivore_feeding (fun _ _ _ => 0) herbParams ⟨5, 20, 1/2, 10⟩ 0).1 = 10 ∧
    (herbivore_feeding (fun _ _ _ => 0) herbParams ⟨5, 20, 1/2, 10⟩ 0).1 ≠ 0 := by
  constructor <;> decide

/-- C5, amended: for positive fodder the consumed portion is
`min appetite fodder`; for non-positive fodder it is the full appetite (not
`0`); the weight grows by `beta * portion` and the fitness is recomputed;
the loop of `Landscape.herbivores_eating` decrements the cell fodder by
exactly the returned portion. -/
theorem claim_c5_amended (fitnessOf : Params → ℚ → ℚ → ℚ) (p : Params)
    (a h : Animal) (f : ℚ) :
    (0 < f → (herbivore_feeding fitnessOf p a f).1 = min a.appetite f) ∧
    (f ≤ 0 → (herbivore_feeding fitnessOf p a f).1 = a.appetite) ∧
    (herbivore_feeding fitnessOf p a f).2.weight
      = a.weight + p.beta * (herbivore_feeding fitnessOf p a f).1 ∧
    (herbivore_feeding fitnessOf p a f).2
      = update_fitness fitnessOf p
          { a with weight := a.weight + p.beta * (herbivore_feeding fitnessOf p a f).1 } ∧
    (0 < f → (herbsEat fitnessOf p f [h]).1
      = f - (herbivore_feeding fitnessOf p (regain_appetite p h) f).1) := by
  refine ⟨?_, ?_, ?_, ?_, ?_⟩
  · intro hf
    unfold herbivore_feeding
    by_cases hlt : f < a.appetite
    · simp only [hf, hlt, and_self, if_true]
      exact (min_eq_right hlt.le).symm
    · simp only [hf, hlt, and_false, if_false]
      exact (min_eq_left (le_of_not_lt hlt)).symm
  · intro hf
    unfold herbivore_feeding
    simp [not_lt.mpr hf]
  · simp [herbivore_feeding]
  · rfl
  · intro hf
    simp [herbsEat, hf]

/-- Witness for C5 (amended): the hypotheses are satisfiable; at fodder 4
and appetite 10 the consumed portion is `min 10 4`. -/
theorem claim_c5_amended_witness :
    (0:ℚ) < 4 ∧
    (herbivore_feeding (fun _ _ _ => 0) herbParams ⟨5, 20, 1/2, 10⟩ 4).1 = min (10:ℚ) 4 :=
  ⟨by norm_num,
    (claim_c5_amended (fun _ _ _ => 0) herbParams ⟨5, 20, 1/2, 10⟩ ⟨5, 20, 1/2, 10⟩ 4).1
      (by norm_num)⟩

/-! ## Claims C8 and C10: birth attempts -/

/-- Case analysis on a `gives_birth` outcome: either no birth with the
parent untouched, or a propagated constructor error, or a successful birth,
which requires that both guards passed. -/
theorem gives_birth_cases (fitnessOf : Params → ℚ → ℚ → ℚ) (p : Params)
    (a : Animal) (n : ℕ) (r : Rand) :
    (gives_birth fitnessOf p a n r).1 = .ok (none, a) ∨
    (∃ e, (gives_birth fitnessOf p a n r).1 = .error e) ∨
    (∃ nb, ¬ a.weight < p.zeta * (p.w_birth + p.sigma_birth) ∧
      ¬ a.weight < p.xi * nb.weight ∧
      (gives_birth fitnessOf p a n r).1
        = .ok (some nb, update_fitness fitnessOf p
            { a with weight := a.weight - p.xi * nb.weight })) := by
  unfold gives_birth
  by_cases hd : r.nextQ.1 < min 1 (p.gamma * a.fitness * ((n : ℚ) - 1))
  · rw [if_pos hd]
    rcases hmk : mkAnimal fitnessOf p none none r.nextQ.2 with ⟨res, r₂⟩
    cases res with
    | error e => exact Or.inr (Or.inl ⟨e, rfl⟩)
    | ok nb =>
      dsimp only
      by_cases hz : a.weight < p.zeta * (p.w_birth + p.sigma_birth)
      · rw [if_pos hz]; exact Or.inl rfl
      · rw [if_neg hz]
        by_cases hx : a.weight < p.xi * nb.weight
        · rw [if_pos hx]; exact Or.inl rfl
        · rw [if_neg hx]; exact Or.inr (Or.inr ⟨nb, hz, hx, rfl⟩)
  · rw [if_neg hd]; exact Or.inl rfl

/-- C8: a birth attempt never leaves the parent with negative weight: the
parent's weight is either unchanged, or it is reduced by `xi` times the
newborn's weight and that amount was at most the parent's weight. -/
theorem claim_c8_birth_weight (fitnessOf : Params → ℚ → ℚ → ℚ) (p : Params)
    (a : Animal) (n : ℕ) (r : Rand) (hw : 0 ≤ a.weight) :
    0 ≤ (birthParent a (gives_birth fitnessOf p a n r).1).weight ∧
    ((birthParent a (gives_birth fitnessOf p a n r).1).weight = a.weight ∨
      (p.xi * birthNewbornWeight (gives_birth fitnessOf p a n r).1 ≤ a.weight ∧
       (birthParent a (gives_birth fitnessOf p a n r).1).weight
         = a.weight - p.xi * birthNewbornWeight (gives_birth fitnessOf p a n r).1)) := by
  rcases gives_birth_cases fitnessOf p a n r with h | ⟨e, h⟩ | ⟨nb, hz, hx, h⟩
  · rw [h]; exact ⟨hw, Or.inl rfl⟩
  · rw [h]; exact ⟨hw, Or.inl rfl⟩
  · rw [h]
    push_neg at hx
    constructor
    · simp only [birthParent, update_fitness_weight]
      linarith
    · right
      constructor
      · simpa only [birthNewbornWeight, birthNewborn] using hx
      · simp only [birthParent, birthNewbornWeight, birthNewborn, update_fitness_weight]

/-- Witness for C8 at a concrete parent of weight 20. -/
theorem claim_c8_birth_weight_witness :
    (0:ℚ) ≤ (20:ℚ) ∧
    (0 ≤ (birthParent ⟨2, 20, 1/2, 10⟩
        (gives_birth (fun _ _ _ => 1/2) herbParams ⟨2, 20, 1/2, 10⟩ 5 zeroRand).1).weight ∧
      ((birthParent ⟨2, 20, 1/2, 10⟩
          (gives_birth (fun _ _ _ => 1/2) herbParams ⟨2, 20, 1/2, 10⟩ 5 zeroRand).1).weight
        = (Animal.mk 2 20 (1/2) 10).weight ∨
        (herbParams.xi * birthNewbornWeight
            (gives_birth (fun _ _ _ => 1/2) herbParams ⟨2, 20, 1/2, 10⟩ 5 zeroRand).1
          ≤ (Animal.mk 2 20 (1/2) 10).weight ∧
         (birthParent ⟨2, 20, 1/2, 10⟩
            (gives_birth (fun _ _ _ => 1/2) herbParams ⟨2, 20, 1/2, 10⟩ 5 zeroRand).1).weight
          = (Animal.mk 2 20 (1/2) 10).weight - herbParams.xi * birthNewbornWeight
              (gives_birth (fun _ _ _ => 1/2) herbParams ⟨2, 20, 1/2, 10⟩ 5 zeroRand).1))) :=
  ⟨by norm_num,
    claim_c8_birth_weight (fun _ _ _ => 1/2) herbParams ⟨2, 20, 1/2, 10⟩ 5 zeroRand (by norm_num)⟩

/-- C10: the zeta threshold is an additional precondition: a parent lighter
than `zeta * (w_birth + sigma_birth)` produces no newborn and is returned
entirely unchanged, whatever the draws. -/
theorem claim_c10_zeta_guard (fitnessOf : Params → ℚ → ℚ → ℚ) (p : Params)
    (a : Animal) (n : ℕ) (r : Rand)
    (hz : a.weight < p.zeta * (p.w_birth + p.sigma_birth)) :
    birthNewborn (gives_birth fitnessOf p a n r).1 = none ∧
    birthParent a (gives_birth fitnessOf p a n r).1 = a := by
  rcases gives_birth_cases fitnessOf p a n r with h | ⟨e, h⟩ | ⟨nb, hz', hx, h⟩
  · rw [h]; exact ⟨rfl, rfl⟩
  · rw [h]; exact ⟨rfl, rfl⟩
  · exact absurd hz hz'

/-- Witness for C10 at a concrete parent of weight 5 (< 3.5 * 9.5). -/
theorem claim_c10_zeta_guard_witness :
    (5:ℚ) < herbParams.zeta * (herbParams.w_birth + herbParams.sigma_birth) ∧
    (birthNewborn (gives_birth (fun _ _ _ => 1/2) herbParams ⟨2, 5, 1/2, 10⟩ 5 zeroRand).1 = none ∧
     birthParent ⟨2, 5, 1/2, 10⟩
        (gives_birth (fun _ _ _ => 1/2) herbParams ⟨2, 5, 1/2, 10⟩ 5 zeroRand).1
       = ⟨2, 5, 1/2, 10⟩) :=
  ⟨by norm_num [herbParams],
    claim_c10_zeta_guard (fun _ _ _ => 1/2) herbParams ⟨2, 5, 1/2, 10⟩ 5 zeroRand
      (by norm_num [herbParams])⟩

/-! ## Claim C4: parameter validation -/

/-- C4, evaluation of the code at the failing input: because the herbivore
table stores `None` under `DeltaPhiMax`, `Animals.set_parameters` skips every
check for that key and the final `parameters.update` stores the supplied
value — here `-5`, which is not strictly positive — into the herbivore
table, while the carnivore table (a number under `DeltaPhiMax`) rejects the
same update. -/
theorem claim_c4_code_eval :
    set_parameters herbParams [("DeltaPhiMax", -5)]
      = .ok { herbParams with DeltaPhiMax := some (-5) } ∧
    set_parameters carnParams [("DeltaPhiMax", -5)]
      = .error "DeltaPhiMax must be strictly positive!" := by
  constructor <;> rfl

/-! ## Claim C7: the fitness formula -/

/-- `q_pos` always lies in `[0, 1]`. -/
theorem q_pos_bounds (phi x xh : ℝ) : 0 ≤ q_pos phi x xh ∧ q_pos phi x xh ≤ 1 := by
  have he : 0 < Real.exp (phi * (x - xh)) := Real.exp_pos _
  unfold q_pos
  constructor
  · positivity
  · rw [div_le_one (by linarith)]
    linarith

/-- `q_neg` always lies in `[0, 1]`. -/
theorem q_neg_bounds (phi x xh : ℝ) : 0 ≤ q_neg phi x xh ∧ q_neg phi x xh ≤ 1 := by
  have he : 0 < Real.exp (-1 * phi * (x - xh)) := Real.exp_pos _
  unfold q_neg
  constructor
  · positivity
  · rw [div_le_one (by linarith)]
    linarith

/-- C7: the computed fitness is `0` for non-positive weight and the product
of the two sigmoids otherwise; it always lies in `[0, 1]`; and at
`age = a_half`, `weight = w_half` (with `w_half` positive, so that the
positive-weight branch applies) it is exactly `1/4`. -/
theorem claim_c7_fitness (a_half phi_age w_half phi_weight : ℝ) :
    (∀ age weight : ℝ,
      0 ≤ fitnessFormula a_half phi_age w_half phi_weight age weight ∧
      fitnessFormula a_half phi_age w_half phi_weight age weight ≤ 1) ∧
    (∀ age weight : ℝ, weight ≤ 0 →
      fitnessFormula a_half phi_age w_half phi_weight age weight = 0) ∧
    (∀ age weight : ℝ, 0 < weight →
      fitnessFormula a_half phi_age w_half phi_weight age weight
        = q_pos phi_age age a_half * q_neg phi_weight weight w_half) ∧
    (0 < w_half →
      fitnessFormula a_half phi_age w_half phi_weight a_half w_half = 1/4) := by
  refine ⟨?_, ?_, ?_, ?_⟩
  · intro age weight
    unfold fitnessFormula
    by_cases hw : weight ≤ 0
    · rw [if_pos hw]
      norm_num
    · rw [if_neg hw]
      obtain ⟨h1, h2⟩ := q_pos_bounds phi_age age a_half
      obtain ⟨h3, h4⟩ := q_neg_bounds phi_weight weight w_half
      exact ⟨mul_nonneg h1 h3, by nlinarith⟩
  · intro age weight hw
    unfold fitnessFormula
    rw [if_pos hw]
  · intro age weight hw
    unfold fitnessFormula
    rw [if_neg (not_le.mpr hw)]
  · intro hw
    unfold fitnessFormula q_pos q_neg
    rw [if_neg (not_le.mpr hw)]
    simp [sub_self]
    norm_num

/-- Witness for C7 at the default herbivore parameters:
`fitness(age = 40, weight = 10) = 1/4`. -/
theorem claim_c7_fitness_witness :
    (0:ℝ) < 10 ∧ fitnessFormula 40 (3/5) 10 (1/10) 40 10 = 1/4 :=
  ⟨by norm_num, (claim_c7_fitness 40 (3/5) 10 (1/10)).2.2.2 (by norm_num)⟩

/-! ## Claim C3: predation and appetite -/

/-- C3, evaluation of the code at the failing input: a single carnivore
(`F = 50`) facing two herbivores of weights 50 and 40 and lower fitness,
with every kill draw succeeding.  The first kill exhausts its appetite
(`50 - 50 = 0`); the scan of `Landscape.carnivores_eating` nevertheless
continues (the appetite is only checked once, before the scan) and
`carnivore_feeding` consumes the second herbivore's entire weight, leaving
the appetite at `-40`: the carnivore consumed `50 + 40 = 90 > F` of prey
mass in one feeding phase. -/
theorem claim_c3_code_eval :
    ((carnivores_eating (fun _ _ _ => 9/10) carnParams herbParams
        [⟨5, 30, 9/10, 0⟩] [⟨2, 50, 1/10, 10⟩, ⟨2, 40, 1/5, 10⟩] zeroRand).1.map
          Animal.appetite = [-40]) ∧
    ((carnivores_eating (fun _ _ _ => 9/10) carnParams herbParams
        [⟨5, 30, 9/10, 0⟩] [⟨2, 50, 1/10, 10⟩, ⟨2, 40, 1/5, 10⟩] zeroRand).2.1 = []) ∧
    carnParams.F < carnParams.F - (-40 : ℚ) := by
  refine ⟨?_, ?_, by norm_num [carnParams]⟩ <;>
    norm_num [carnivores_eating, carnsEat, carnScan, carnivore_feeding,
      sort_herbs_by_fitness, List.insertionSort, List.orderedInsert,
      regain_appetite, update_fitness, zeroRand, Rand.nextQ, carnParams]

/-! ## Claim C9: fodder bounds -/

/-- The consumed portion of a just-regained herbivore is the fodder when
`0 < fodder < F` and the full appetite `F` otherwise. -/
theorem herb_portion (fitnessOf : Params → ℚ → ℚ → ℚ) (p : Params) (h : Animal) (f : ℚ) :
    (herbivore_feeding fitnessOf p (regain_appetite p h) f).1
      = if 0 < f ∧ f < p.F then f else p.F := by
  simp [herbivore_feeding, regain_appetite]

/-- Fodder stays non-negative along the feeding scan, and never increases
when the appetite parameter `F` is non-negative. -/
theorem herbsEat_fodder_bounds (fitnessOf : Params → ℚ → ℚ → ℚ) (p : Params) :
    ∀ (pop : List Animal) (f : ℚ), 0 ≤ f →
      0 ≤ (herbsEat fitnessOf p f pop).1 ∧
      (0 ≤ p.F → (herbsEat fitnessOf p f pop).1 ≤ f) := by
  intro pop
  induction pop with
  | nil =>
    intro f hf
    exact ⟨hf, fun _ => le_refl f⟩
  | cons h rest ih =>
    intro f hf
    by_cases h0 : 0 < f
    · simp only [herbsEat, if_pos h0, herb_portion]
      by_cases hc : 0 < f ∧ f < p.F
      · rw [if_pos hc, sub_self]
        obtain ⟨h1, h2⟩ := ih 0 le_rfl
        exact ⟨h1, fun hF => (h2 hF).trans hf⟩
      · rw [if_neg hc]
        have hFf : p.F ≤ f := by
          rcases not_and_or.mp hc with h' | h'

          · exact absurd h0 h'
          · exact le_of_not_lt h'
        obtain ⟨h1, h2⟩ := ih (f - p.F) (by linarith)
        exact ⟨h1, fun hF => (h2 hF).trans (by linarith)⟩
    · simp only [herbsEat, if_neg h0]
      exact ⟨hf, fun _ => le_refl f⟩

/-- C9: starting from the regrown level `f_max ≥ 0` (`Landscape.regrowth`
sets `fodder = f_max`), after `Landscape.herbivores_eating` the fodder lies
in `[0, f_max]` for any herbivore population (whenever the species appetite
`F` is non-negative, as validation guarantees).  The later pre-migration
steps (`carnivores_eating`, `reproduction`) never touch the fodder. -/
theorem claim_c9_fodder_bounds (fitnessOf : Params → ℚ → ℚ → ℚ) (p : Params)
    (f_max : ℚ) (pop : List Animal) (hfm : 0 ≤ f_max) (hF : 0 ≤ p.F) :
    0 ≤ (herbivores_eating fitnessOf p f_max pop).1 ∧
    (herbivores_eating fitnessOf p f_max pop).1 ≤ f_max := by
  obtain ⟨h1, h2⟩ :=
    herbsEat_fodder_bounds fitnessOf p (sort_herbs_by_fitness true pop) f_max hfm
  exact ⟨h1, h2 hF⟩

/-- Witness for C9 on a Lowland cell (`f_max = 800`) with one herbivore. -/
theorem claim_c9_fodder_bounds_witness :
    ((0:ℚ) ≤ 800 ∧ (0:ℚ) ≤ herbParams.F) ∧
    (0 ≤ (herbivores_eating (fun _ _ _ => 1/2) herbParams 800 [⟨5, 20, 1/2, 0⟩]).1 ∧
     (herbivores_eating (fun _ _ _ => 1/2) herbParams 800 [⟨5, 20, 1/2, 0⟩]).1 ≤ 800) :=
  ⟨⟨by norm_num, by norm_num [herbParams]⟩,
    claim_c9_fodder_bounds (fun _ _ _ => 1/2) herbParams 800 [⟨5, 20, 1/2, 0⟩]
      (by norm_num) (by norm_num [herbParams])⟩

/-! ## Migration: basic lemmas -/

@[simp]
theorem setCell_self (m : IslandMap) (loc : Loc) (c : Cell) : setCell m loc c loc = c := by
  simp [setCell]

theorem setCell_ne (m : IslandMap) (loc l : Loc) (c : Cell) (h : l ≠ loc) :
    setCell m loc c l = m l := by
  simp [setCell, h]

/-- Updating one key of the map shifts a cell-wise sum by the difference at
that key (stated additively to stay in `ℕ`). -/
theorem sum_setCell (g : Cell → ℕ) :
    ∀ (locs : List Loc), locs.Nodup → ∀ loc ∈ locs, ∀ (m : IslandMap) (c : Cell),
      (locs.map fun l => g (setCell m loc c l)).sum + g (m loc)
        = (locs.map fun l => g (m l)).sum + g c := by
  intro locs
  induction locs with
  | nil => intro _ loc hloc; simp at hloc
  | cons a rest ih =>
    intro hnd loc hloc m c
    rw [List.nodup_cons] at hnd
    obtain ⟨ha, hrest⟩ := hnd
    rcases List.mem_cons.mp hloc with h | h
    · subst h
      have hmap : rest.map (fun l => g (setCell m loc c l)) = rest.map (fun l => g (m l)) := by
        apply List.map_congr_left
        intro l hl
        rw [setCell_ne]
        exact fun he => ha (he ▸ hl)
      simp only [List.map_cons, List.sum_cons, setCell_self, hmap]
      omega
    · have hane : a ≠ loc := fun he => ha (he ▸ h)
      have hrec := ih hrest loc h m c
      simp only [List.map_cons, List.sum_cons, setCell_ne m loc a c hane]
      omega

/-- `animal_migration`'s split loses no animal: migrators and stayers
together have the length of the population. -/
theorem splitMigrators_length (p : Params) :
    ∀ (pop : List Animal) (r : Rand),
      (splitMigrators p pop r).1.length + (splitMigrators p pop r).2.1.length
        = pop.length := by
  intro pop
  induction pop with
  | nil => intro r; rfl
  | cons a rest ih =>
    intro r
    simp only [splitMigrators]
    by_cases hb : (migrate p a r).1
    · simp only [if_pos hb, List.length_cons]
      have := ih (migrate p a r).2
      omega
    · simp only [if_neg hb, List.length_cons]
      have := ih (migrate p a r).2
      omega

/-- The split consumes exactly one `random.random()` draw per animal. -/
theorem splitMigrators_qi (p : Params) :
    ∀ (pop : List Animal) (r : Rand),
      ((splitMigrators p pop r).2.2).qi = r.qi + pop.length := by
  intro pop
  induction pop with
  | nil => intro r; rfl
  | cons a rest ih =>
    intro r
    simp only [splitMigrators]
    by_cases hb : (migrate p a r).1
    · simp only [if_pos hb]
      rw [ih (migrate p a r).2]
      simp [migrate, Rand.nextQ, List.length_cons]
      omega
    · simp only [if_neg hb]
      rw [ih (migrate p a r).2]
      simp [migrate, Rand.nextQ, List.length_cons]
      omega

/-- Sending one migrant leaves every cell's projection `f` unchanged,
whenever the registration function does. -/
theorem sendMigrant_proj {α : Type} (f : Cell → α) (reg : Cell → Animal → Cell)
    (hreg : ∀ c a, f (reg c a) = f c) (m : IslandMap) (origin : Loc)
    (a : Animal) (r : Rand) (l : Loc) :
    f ((sendMigrant reg m origin a r).1 l) = f (m l) := by
  unfold sendMigrant
  by_cases hw : (m (neighboursOf origin r.nextChoice.1)).terrain = Terrain.Water
  · rw [if_pos hw]
    dsimp only
    by_cases hl : l = origin
    · subst hl; rw [setCell_self, hreg]
    · rw [setCell_ne _ _ _ _ hl]
  · rw [if_neg hw]
    dsimp only
    by_cases hl : l = neighboursOf origin r.nextChoice.1
    · subst hl; rw [setCell_self, hreg]
    · rw [setCell_ne _ _ _ _ hl]

/-- Sending a migrant list leaves every cell's projection `f` unchanged,
whenever the registration function does. -/
theorem sendMigrants_proj {α : Type} (f : Cell → α) (reg : Cell → Animal → Cell)
    (hreg : ∀ c a, f (reg c a) = f c) (origin : Loc) :
    ∀ (as : List Animal) (m : IslandMap) (r : Rand) (l : Loc),
      f ((sendMigrants reg origin m as r).1 l) = f (m l) := by
  intro as
  induction as with
  | nil => intro m r l; rfl
  | cons a rest ih =>
    intro m r l
    simp only [sendMigrants]
    rw [ih, sendMigrant_proj f reg hreg]

/-- Sending one migrant consumes no `random.random()` draw (it consumes one
`random.choice` draw). -/
theorem sendMigrant_qi (reg : Cell → Animal → Cell) (m : IslandMap) (origin : Loc)
    (a : Animal) (r : Rand) : ((sendMigrant reg m origin a r).2).qi = r.qi := by
  unfold sendMigrant
  by_cases hw : (m (neighboursOf origin r.nextChoice.1)).terrain = Terrain.Water
  · rw [if_pos hw]; rfl
  · rw [if_neg hw]; rfl

/-- Sending a migrant list consumes no `random.random()` draw. -/
theorem sendMigrants_qi (reg : Cell → Animal → Cell) (origin : Loc) :
    ∀ (as : List Animal) (m : IslandMap) (r : Rand),
      ((sendMigrants reg origin m as r).2).qi = r.qi := by
  intro as
  induction as with
  | nil => intro m r; rfl
  | cons a rest ih =>
    intro m r
    simp only [sendMigrants]
    rw [ih, sendMigrant_qi]

/-- Sending one migrant raises the island-wide sum of `g` by exactly the
increment `k` of the registration function: the animal lands in exactly one
incoming list of a cell of the island. -/
theorem sendMigrant_sum (g : Cell → ℕ) (k : ℕ) (reg : Cell → Animal → Cell)
    (hreg : ∀ c a, g (reg c a) = g c + k) (locs : List Loc) (hnd : locs.Nodup)
    (m : IslandMap) (origin : Loc) (a : Animal) (r : Rand)
    (hor : origin ∈ locs) (hnb : ∀ i : Fin 4, neighboursOf origin i ∈ locs) :
    (locs.map fun l => g ((sendMigrant reg m origin a r).1 l)).sum
      = (locs.map fun l => g (m l)).sum + k := by
  unfold sendMigrant
  by_cases hw : (m (neighboursOf origin r.nextChoice.1)).terrain = Terrain.Water
  · rw [if_pos hw]
    dsimp only
    have h := sum_setCell g locs hnd origin hor m (reg (m origin) a)
    rw [hreg] at h
    omega
  · rw [if_neg hw]
    dsimp only
    have h := sum_setCell g locs hnd _ (hnb r.nextChoice.1) m
      (reg (m (neighboursOf origin r.nextChoice.1)) a)
    rw [hreg] at h
    omega

/-- Sending a migrant list raises the island-wide sum of `g` by `k` per
migrant. -/
theorem sendMigrants_sum (g : Cell → ℕ) (k : ℕ) (reg : Cell → Animal → Cell)
    (hreg : ∀ c a, g (reg c a) = g c + k) (locs : List Loc) (hnd : locs.Nodup)
    (origin : Loc) (hor : origin ∈ locs)
    (hnb : ∀ i : Fin 4, neighboursOf origin i ∈ locs) :
    ∀ (as : List Animal) (m : IslandMap) (r : Rand),
      (locs.map fun l => g ((sendMigrants reg origin m as r).1 l)).sum
        = (locs.map fun l => g (m l)).sum + k * as.length := by
  intro as
  induction as with
  | nil => intro m r; simp [sendMigrants]
  | cons a rest ih =>
    intro m r
    simp only [sendMigrants]
    rw [ih, sendMigrant_sum g k reg hreg locs hnd m origin a r hor hnb]
    simp only [List.length_cons]
    ring

/-! ## Migration: per-cell staging lemmas -/

/-- Staging a cell never changes any cell's terrain. -/
theorem stageCell_terrain (pH pC : Params) (m : IslandMap) (loc : Loc) (r : Rand)
    (l : Loc) : ((stageCell pH pC m loc r).1 l).terrain = (m l).terrain := by
  by_cases hw : (m loc).terrain = Terrain.Water
  · unfold stageCell; rw [if_pos hw]
  · unfold stageCell
    rw [if_neg hw]
    dsimp only
    rw [sendMigrants_proj Cell.terrain addMigC (fun c a => rfl) loc,
        sendMigrants_proj Cell.terrain addMigH (fun c a => rfl) loc]
    by_cases hl : l = loc
    · subst hl; rw [setCell_self]
    · rw [setCell_ne _ _ _ _ hl]

/-- Staging a cell changes the live populations of no other cell: all other
cells receive animals only into their incoming (staging) lists. -/
theorem stageCell_pops_ne (pH pC : Params) (m : IslandMap) (loc : Loc) (r : Rand)
    (l : Loc) (hl : l ≠ loc) :
    ((stageCell pH pC m loc r).1 l).herb_pop = (m l).herb_pop ∧
    ((stageCell pH pC m loc r).1 l).carn_pop = (m l).carn_pop := by
  by_cases hw : (m loc).terrain = Terrain.Water
  · unfold stageCell; rw [if_pos hw]; exact ⟨rfl, rfl⟩
  · unfold stageCell
    rw [if_neg hw]
    dsimp only
    constructor
    · rw [sendMigrants_proj Cell.herb_pop addMigC (fun c a => rfl) loc,
          sendMigrants_proj Cell.herb_pop addMigH (fun c a => rfl) loc,
          setCell_ne _ _ _ _ hl]
    · rw [sendMigrants_proj Cell.carn_pop addMigC (fun c a => rfl) loc,
          sendMigrants_proj Cell.carn_pop addMigH (fun c a => rfl) loc,
          setCell_ne _ _ _ _ hl]

/-- Sending a migrant never writes to a water cell: the target is the
(non-water) origin or a neighbour checked to be non-water. -/
theorem sendMigrant_water_eq (reg : Cell → Animal → Cell) (m : IslandMap)
    (origin : Loc) (a : Animal) (r : Rand) (l : Loc)
    (hor : (m origin).terrain ≠ Terrain.Water)
    (hl : (m l).terrain = Terrain.Water) :
    (sendMigrant reg m origin a r).1 l = m l := by
  unfold sendMigrant
  by_cases hw : (m (neighboursOf origin r.nextChoice.1)).terrain = Terrain.Water
  · rw [if_pos hw]
    dsimp only
    exact setCell_ne _ _ _ _ (fun he => hor (he ▸ hl))
  · rw [if_neg hw]
    dsimp only
    exact setCell_ne _ _ _ _ (fun he => hw (he ▸ hl))

/-- Sending a migrant list never writes to a water cell. -/
theorem sendMigrants_water_eq (reg : Cell → Animal → Cell)
    (hregt : ∀ c a, (reg c a).terrain = c.terrain) (origin : Loc) :
    ∀ (as : List Animal) (m : IslandMap) (r : Rand) (l : Loc),
      (m origin).terrain ≠ Terrain.Water → (m l).terrain = Terrain.Water →
      (sendMigrants reg origin m as r).1 l = m l := by
  intro as
  induction as with
  | nil => intro m r l _ _; rfl
  | cons a rest ih =>
    intro m r l hor hl
    simp only [sendMigrants]
    have horT : ((sendMigrant reg m origin a r).1 origin).terrain ≠ Terrain.Water := by
      rw [sendMigrant_proj Cell.terrain reg hregt]; exact hor
    have hlT : ((sendMigrant reg m origin a r).1 l).terrain = Terrain.Water := by
      rw [sendMigrant_proj Cell.terrain reg hregt]; exact hl
    rw [ih (sendMigrant reg m origin a r).1 (sendMigrant reg m origin a r).2 l horT hlT]
    exact sendMigrant_water_eq reg m origin a r l hor hl

/-- Staging a cell leaves every water cell of the island entirely
untouched. -/
theorem stageCell_water_eq (pH pC : Params) (m : IslandMap) (loc : Loc) (r : Rand)
    (l : Loc) (hl : (m l).terrain = Terrain.Water) :
    (stageCell pH pC m loc r).1 l = m l := by
  by_cases hw : (m loc).terrain = Terrain.Water
  · unfold stageCell; rw [if_pos hw]
  · unfold stageCell
    rw [if_neg hw]
    dsimp only
    have hlne : l ≠ loc := fun he => hw (he ▸ hl)
    generalize hsH : splitMigrators pH (m loc).herb_pop r = sH
    generalize hsC : splitMigrators pC (m loc).carn_pop sH.2.2 = sC
    generalize hm1 : setCell m loc { m loc with herb_pop := sH.2.1, carn_pop := sC.2.1 } = m₁
    have hm1l : m₁ l = m l := by rw [← hm1]; exact setCell_ne _ _ _ _ hlne
    have hm1or : (m₁ loc).terrain ≠ Terrain.Water := by
      rw [← hm1, setCell_self]; exact hw
    have hm1lT : (m₁ l).terrain = Terrain.Water := by rw [hm1l]; exact hl
    have hHor : ((sendMigrants addMigH loc m₁ sH.1 sC.2.2).1 loc).terrain ≠ Terrain.Water := by
      rw [sendMigrants_proj Cell.terrain addMigH (fun c a => rfl) loc]; exact hm1or
    have hHl : ((sendMigrants addMigH loc m₁ sH.1 sC.2.2).1 l).terrain = Terrain.Water := by
      rw [sendMigrants_proj Cell.terrain addMigH (fun c a => rfl) loc]; exact hm1lT
    rw [sendMigrants_water_eq addMigC (fun c a => rfl) loc sC.1 _ _ l hHor hHl,
        sendMigrants_water_eq addMigH (fun c a => rfl) loc sH.1 m₁ sC.2.2 l hm1or hm1lT,
        hm1l]

/-- Staging a cell preserves the island-wide herbivore total (live plus
staged): stayers are written back and each migrator lands in exactly one
incoming list of a cell of the map. -/
theorem stageCell_totalHerb (pH pC : Params) (locs : List Loc) (hnd : locs.Nodup)
    (m : IslandMap) (loc : Loc) (r : Rand) (hloc : loc ∈ locs)
    (hnb : (m loc).terrain ≠ Terrain.Water → ∀ i : Fin 4, neighboursOf loc i ∈ locs) :
    totalHerbCount locs ((stageCell pH pC m loc r).1) = totalHerbCount locs m := by
  by_cases hw : (m loc).terrain = Terrain.Water
  · unfold stageCell; rw [if_pos hw]
  · have hnb' := hnb hw
    unfold stageCell
    rw [if_neg hw]
    dsimp only
    generalize hsH : splitMigrators pH (m loc).herb_pop r = sH
    generalize hsC : splitMigrators pC (m loc).carn_pop sH.2.2 = sC
    have hlenH : sH.1.length + sH.2.1.length = (m loc).herb_pop.length := by
      rw [← hsH]; exact splitMigrators_length pH _ r
    unfold totalHerbCount
    rw [sendMigrants_sum cellHerbCount 0 addMigC
          (fun c a => by simp [cellHerbCount, addMigC]) locs hnd loc hloc hnb',
        sendMigrants_sum cellHerbCount 1 addMigH
          (fun c a => by simp [cellHerbCount, addMigH]; omega) locs hnd loc hloc hnb']
    have hset := sum_setCell cellHerbCount locs hnd loc hloc m
      { m loc with herb_pop := sH.2.1, carn_pop := sC.2.1 }
    simp only [cellHerbCount] at hset ⊢
    omega

/-- Staging a cell preserves the island-wide carnivore total (live plus
staged). -/
theorem stageCell_totalCarn (pH pC : Params) (locs : List Loc) (hnd : locs.Nodup)
    (m : IslandMap) (loc : Loc) (r : Rand) (hloc : loc ∈ locs)
    (hnb : (m loc).terrain ≠ Terrain.Water → ∀ i : Fin 4, neighboursOf loc i ∈ locs) :
    totalCarnCount locs ((stageCell pH pC m loc r).1) = totalCarnCount locs m := by
  by_cases hw : (m loc).terrain = Terrain.Water
  · unfold stageCell; rw [if_pos hw]
  · have hnb' := hnb hw
    unfold stageCell
    rw [if_neg hw]
    dsimp only
    generalize hsH : splitMigrators pH (m loc).herb_pop r = sH
    generalize hsC : splitMigrators pC (m loc).carn_pop sH.2.2 = sC
    have hlenC : sC.1.length + sC.2.1.length = (m loc).carn_pop.length := by
      rw [← hsC]; exact splitMigrators_length pC _ sH.2.2
    unfold totalCarnCount
    rw [sendMigrants_sum cellCarnCount 1 addMigC
          (fun c a => by simp [cellCarnCount, addMigC]; omega) locs hnd loc hloc hnb',
        sendMigrants_sum cellCarnCount 0 addMigH
          (fun c a => by simp [cellCarnCount, addMigH]) locs hnd loc hloc hnb']
    have hset := sum_setCell cellCarnCount locs hnd loc hloc m
      { m loc with herb_pop := sH.2.1, carn_pop := sC.2.1 }
    simp only [cellCarnCount] at hset ⊢
    omega

/-- Staging a cell consumes exactly one `random.random()` draw per animal
currently living in it (none on water cells): every animal is asked its
migration decision exactly once. -/
theorem stageCell_qi (pH pC : Params) (m : IslandMap) (loc : Loc) (r : Rand) :
    ((stageCell pH pC m loc r).2).qi
      = r.qi + (if (m loc).terrain = Terrain.Water then 0
          else (m loc).herb_pop.length + (m loc).carn_pop.length) := by
  by_cases hw : (m loc).terrain = Terrain.Water
  · simp only [stageCell, if_pos hw, if_pos hw]
    omega
  · simp only [stageCell, if_neg hw]
    rw [sendMigrants_qi, sendMigrants_qi, splitMigrators_qi, splitMigrators_qi]
    omega

/-! ## Migration: staging-loop and commit-loop lemmas -/

/-- The whole staging phase never changes any cell's terrain. -/
theorem stageLoop_terrain (pH pC : Params) :
    ∀ (ps : List Loc) (m : IslandMap) (r : Rand) (l : Loc),
      ((stageLoop pH pC ps m r).1 l).terrain = (m l).terrain := by
  intro ps
  induction ps with
  | nil => intro m r l; rfl
  | cons loc rest ih =>
    intro m r l
    simp only [stageLoop]
    rw [ih, stageCell_terrain]

/-- A cell not yet staged still holds exactly its pre-migration live
populations after any other cells have been staged: staging elsewhere only
ever touches its incoming lists. -/
theorem stageLoop_pops_not_mem (pH pC : Params) :
    ∀ (ps : List Loc) (m : IslandMap) (r : Rand) (loc : Loc), loc ∉ ps →
      ((stageLoop pH pC ps m r).1 loc).herb_pop = (m loc).herb_pop ∧
      ((stageLoop pH pC ps m r).1 loc).carn_pop = (m loc).carn_pop := by
  intro ps
  induction ps with
  | nil => intro m r loc _; exact ⟨rfl, rfl⟩
  | cons a rest ih =>
    intro m r loc hmem
    have hne : loc ≠ a := fun he => hmem (he ▸ List.mem_cons_self a rest)
    have hrest : loc ∉ rest := fun h => hmem (List.mem_cons_of_mem a h)
    simp only [stageLoop]
    obtain ⟨ihH, ihC⟩ := ih (stageCell pH pC m a r).1 (stageCell pH pC m a r).2 loc hrest
    obtain ⟨hH, hC⟩ := stageCell_pops_ne pH pC m a r loc hne
    exact ⟨ihH.trans hH, ihC.trans hC⟩

/-- The whole staging phase leaves every water cell entirely untouched. -/
theorem stageLoop_water_eq (pH pC : Params) :
    ∀ (ps : List Loc) (m : IslandMap) (r : Rand) (l : Loc),
      (m l).terrain = Terrain.Water → (stageLoop pH pC ps m r).1 l = m l := by
  intro ps
  induction ps with
  | nil => intro m r l _; rfl
  | cons loc rest ih =>
    intro m r l hl
    simp only [stageLoop]
    have hstep := stageCell_water_eq pH pC m loc r l hl
    have hl' : ((stageCell pH pC m loc r).1 l).terrain = Terrain.Water := by
      rw [hstep]; exact hl
    rw [ih _ _ _ hl', hstep]

/-- The whole staging phase preserves the island-wide herbivore total. -/
theorem stageLoop_totalHerb (pH pC : Params) (locs : List Loc) (hnd : locs.Nodup) :
    ∀ (ps : List Loc) (m : IslandMap) (r : Rand),
      (∀ l ∈ ps, l ∈ locs) →
      (∀ loc ∈ locs, (m loc).terrain ≠ Terrain.Water →
        ∀ i : Fin 4, neighboursOf loc i ∈ locs) →
      totalHerbCount locs ((stageLoop pH pC ps m r).1) = totalHerbCount locs m := by
  intro ps
  induction ps with
  | nil => intro m r _ _; rfl
  | cons loc rest ih =>
    intro m r hsub hnbs
    have hloc : loc ∈ locs := hsub loc (List.mem_cons_self loc rest)
    simp only [stageLoop]
    rw [ih _ _ (fun l hl => hsub l (List.mem_cons_of_mem loc hl)) ?_]
    · exact stageCell_totalHerb pH pC locs hnd m loc r hloc (hnbs loc hloc)
    · intro l hl hwT i
      rw [stageCell_terrain] at hwT
      exact hnbs l hl hwT i

/-- The whole staging phase preserves the island-wide carnivore total. -/
theorem stageLoop_totalCarn (pH pC : Params) (locs : List Loc) (hnd : locs.Nodup) :
    ∀ (ps : List Loc) (m : IslandMap) (r : Rand),
      (∀ l ∈ ps, l ∈ locs) →
      (∀ loc ∈ locs, (m loc).terrain ≠ Terrain.Water →
        ∀ i : Fin 4, neighboursOf loc i ∈ locs) →
      totalCarnCount locs ((stageLoop pH pC ps m r).1) = totalCarnCount locs m := by
  intro ps
  induction ps with
  | nil => intro m r _ _; rfl
  | cons loc rest ih =>
    intro m r hsub hnbs
    have hloc : loc ∈ locs := hsub loc (List.mem_cons_self loc rest)
    simp only [stageLoop]
    rw [ih _ _ (fun l hl => hsub l (List.mem_cons_of_mem loc hl)) ?_]
    · exact stageCell_totalCarn pH pC locs hnd m loc r hloc (hnbs loc hloc)
    · intro l hl hwT i
      rw [stageCell_terrain] at hwT
      exact hnbs l hl hwT i

/-- Over the whole staging phase, with no duplicate keys, the number of
`random.random()` draws consumed is exactly the number of animals living in
non-water cells *before* the phase: every animal is asked its migration
decision exactly once, and staged migrants are never asked again. -/
theorem stageLoop_qi (pH pC : Params) :
    ∀ (ps : List Loc) (m : IslandMap) (r : Rand), ps.Nodup →
      ((stageLoop pH pC ps m r).2).qi
        = r.qi + (ps.map (fun l => if (m l).terrain = Terrain.Water then 0
            else (m l).herb_pop.length + (m l).carn_pop.length)).sum := by
  intro ps
  induction ps with
  | nil => intro m r _; simp [stageLoop]
  | cons loc rest ih =>
    intro m r hnd
    rw [List.nodup_cons] at hnd
    obtain ⟨hloc, hrest⟩ := hnd
    simp only [stageLoop]
    rw [ih _ _ hrest]
    have hmap : rest.map (fun l => if ((stageCell pH pC m loc r).1 l).terrain = Terrain.Water
          then 0 else ((stageCell pH pC m loc r).1 l).herb_pop.length
            + ((stageCell pH pC m loc r).1 l).carn_pop.length)
        = rest.map (fun l => if (m l).terrain = Terrain.Water then 0
            else (m l).herb_pop.length + (m l).carn_pop.length) := by
      apply List.map_congr_left
      intro l hl
      have hne : l ≠ loc := fun he => hloc (he ▸ hl)
      obtain ⟨hH, hC⟩ := stageCell_pops_ne pH pC m loc r l hne
      rw [stageCell_terrain, hH, hC]
    rw [hmap, stageCell_qi]
    simp only [List.map_cons, List.sum_cons]
    omega

/-- Committing a cell leaves every other cell untouched. -/
theorem commitCell_ne (m : IslandMap) (loc l : Loc) (hl : l ≠ loc) :
    commitCell m loc l = m l := by
  by_cases hw : (m loc).terrain = Terrain.Water
  · simp only [commitCell, if_pos hw]
  · simp only [commitCell, if_neg hw]
    exact setCell_ne _ _ _ _ hl

/-- Committing a cell preserves any cell-wise sum that
`add_migraters_to_pop` preserves. -/
theorem commitCell_sum (g : Cell → ℕ) (hg : ∀ c, g (add_migraters_to_pop c) = g c)
    (locs : List Loc) (hnd : locs.Nodup) (m : IslandMap) (loc : Loc)
    (hloc : loc ∈ locs) :
    (locs.map fun l => g (commitCell m loc l)).sum
      = (locs.map fun l => g (m l)).sum := by
  by_cases hw : (m loc).terrain = Terrain.Water
  · simp only [commitCell, if_pos hw]
  · simp only [commitCell, if_neg hw]
    have h := sum_setCell g locs hnd loc hloc m (add_migraters_to_pop (m loc))
    rw [hg] at h
    omega

/-- The commit phase preserves any cell-wise sum that
`add_migraters_to_pop` preserves. -/
theorem commitLoop_sum (g : Cell → ℕ) (hg : ∀ c, g (add_migraters_to_pop c) = g c)
    (locs : List Loc) (hnd : locs.Nodup) :
    ∀ (ps : List Loc) (m : IslandMap), (∀ l ∈ ps, l ∈ locs) →
      (locs.map fun l => g (commitLoop ps m l)).sum
        = (locs.map fun l => g (m l)).sum := by
  intro ps
  induction ps with
  | nil => intro m _; rfl
  | cons loc rest ih =>
    intro m hsub
    simp only [commitLoop]
    rw [ih _ (fun l hl => hsub l (List.mem_cons_of_mem loc hl))]
    exact commitCell_sum g hg locs hnd m loc (hsub loc (List.mem_cons_self loc rest))

/-- A location outside the processed list is untouched by the commit loop. -/
theorem commitLoop_not_mem :
    ∀ (ps : List Loc) (m : IslandMap) (loc : Loc), loc ∉ ps →
      commitLoop ps m loc = m loc := by
  intro ps
  induction ps with
  | nil => intro m loc _; rfl
  | cons a rest ih =>
    intro m loc hmem
    have hne : loc ≠ a := fun he => hmem (he ▸ List.mem_cons_self a rest)
    have hrest : loc ∉ rest := fun h => hmem (List.mem_cons_of_mem a h)
    simp only [commitLoop]
    rw [ih _ _ hrest, commitCell_ne m a loc hne]

/-- The commit loop's effect at each of its keys: water cells are skipped,
the rest merge their incoming lists. -/
theorem commitLoop_at :
    ∀ (ps : List Loc), ps.Nodup → ∀ (m : IslandMap) (loc : Loc), loc ∈ ps →
      commitLoop ps m loc
        = if (m loc).terrain = Terrain.Water then m loc
          else add_migraters_to_pop (m loc) := by
  intro ps
  induction ps with
  | nil => intro _ m loc hloc; simp at hloc
  | cons a rest ih =>
    intro hnd m loc hloc
    rw [List.nodup_cons] at hnd
    obtain ⟨hna, hndr⟩ := hnd
    rcases List.mem_cons.mp hloc with he | hin
    · subst he
      simp only [commitLoop]
      rw [commitLoop_not_mem rest _ _ hna]
      by_cases hw : (m loc).terrain = Terrain.Water
      · simp only [commitCell, if_pos hw]
      · simp only [commitCell, if_neg hw, setCell_self]
    · have hne : loc ≠ a := fun he => hna (he ▸ hin)
      simp only [commitLoop]
      rw [ih hndr _ loc hin, commitCell_ne m a loc hne]

/-! ## Claims C1 and C2: the migration phase -/

/-- The two island-wide species totals coincide with the live counts
whenever every staging list is empty. -/
theorem totals_eq_counts_of_empty_migs (locs : List Loc) (m : IslandMap)
    (hm : ∀ loc ∈ locs, (m loc).migrating_herbs = [] ∧ (m loc).migrating_carns = []) :
    totalHerbCount locs m = get_number_of_herbs locs m ∧
    totalCarnCount locs m = get_number_of_carns locs m := by
  constructor
  · unfold totalHerbCount get_number_of_herbs
    apply congrArg List.sum
    apply List.map_congr_left
    intro l hl
    simp [cellHerbCount, (hm l hl).1]
  · unfold totalCarnCount get_number_of_carns
    apply congrArg List.sum
    apply List.map_congr_left
    intro l hl
    simp [cellCarnCount, (hm l hl).2]

/-- C1: one full `Island.island_migration` pass (stage every cell, then
commit every cell) preserves both island-wide species totals, for every
well-formed map (no duplicate keys; the four neighbours of every non-water
cell are keys, as the water border of a successfully constructed map
guarantees), every state of the per-cell populations whose staging lists
are empty (as they are outside the migration phase), and every sequence of
random draws. -/
theorem claim_c1_migration_conserves (pH pC : Params) (locs : List Loc)
    (m : IslandMap) (r : Rand) (hnd : locs.Nodup)
    (hnbs : ∀ loc ∈ locs, (m loc).terrain ≠ Terrain.Water →
      ∀ i : Fin 4, neighboursOf loc i ∈ locs)
    (hmig : ∀ loc ∈ locs, (m loc).migrating_herbs = [] ∧ (m loc).migrating_carns = []) :
    get_number_of_herbs locs ((island_migration pH pC locs m r).1)
      = get_number_of_herbs locs m ∧
    get_number_of_carns locs ((island_migration pH pC locs m r).1)
      = get_number_of_carns locs m := by
  have hH1 : totalHerbCount locs ((stageLoop pH pC locs m r).1) = totalHerbCount locs m :=
    stageLoop_totalHerb pH pC locs hnd locs m r (fun l hl => hl) hnbs
  have hC1 : totalCarnCount locs ((stageLoop pH pC locs m r).1) = totalCarnCount locs m :=
    stageLoop_totalCarn pH pC locs hnd locs m r (fun l hl => hl) hnbs
  have hH2 : totalHerbCount locs (commitLoop locs (stageLoop pH pC locs m r).1)
      = totalHerbCount locs ((stageLoop pH pC locs m r).1) :=
    commitLoop_sum cellHerbCount
      (fun c => by simp [cellHerbCount, add_migraters_to_pop])
      locs hnd locs _ (fun l hl => hl)
  have hC2 : totalCarnCount locs (commitLoop locs (stageLoop pH pC locs m r).1)
      = totalCarnCount locs ((stageLoop pH pC locs m r).1) :=
    commitLoop_sum cellCarnCount
      (fun c => by simp [cellCarnCount, add_migraters_to_pop])
      locs hnd locs _ (fun l hl => hl)
  have hfin : ∀ loc ∈ locs,
      (commitLoop locs (stageLoop pH pC locs m r).1 loc).migrating_herbs = [] ∧
      (commitLoop locs (stageLoop pH pC locs m r).1 loc).migrating_carns = [] := by
    intro loc hloc
    rw [commitLoop_at locs hnd _ loc hloc]
    by_cases hw : ((stageLoop pH pC locs m r).1 loc).terrain = Terrain.Water
    · rw [if_pos hw]
      have hwm : (m loc).terrain = Terrain.Water := by
        rw [stageLoop_terrain] at hw; exact hw
      rw [stageLoop_water_eq pH pC locs m r loc hwm]
      exact hmig loc hloc
    · rw [if_neg hw]
      exact ⟨rfl, rfl⟩
  obtain ⟨heq1, heq2⟩ := totals_eq_counts_of_empty_migs locs m hmig
  obtain ⟨heq3, heq4⟩ := totals_eq_counts_of_empty_migs locs
    (commitLoop locs (stageLoop pH pC locs m r).1) hfin
  constructor
  · show get_number_of_herbs locs (commitLoop locs (stageLoop pH pC locs m r).1)
      = get_number_of_herbs locs m
    omega
  · show get_number_of_carns locs (commitLoop locs (stageLoop pH pC locs m r).1)
      = get_number_of_carns locs m
    omega

/-- Witness for C1: the demo 3x3 island with two herbivores and one
carnivore at the Lowland centre; both totals are preserved. -/
theorem claim_c1_migration_conserves_witness :
    (demoLocs.Nodup ∧
     (∀ loc ∈ demoLocs, (demoMap loc).terrain ≠ Terrain.Water →
        ∀ i : Fin 4, neighboursOf loc i ∈ demoLocs) ∧
     (∀ loc ∈ demoLocs, (demoMap loc).migrating_herbs = [] ∧
        (demoMap loc).migrating_carns = [])) ∧
    (get_number_of_herbs demoLocs
        ((island_migration intParams intParams demoLocs demoMap zeroRand).1)
      = get_number_of_herbs demoLocs demoMap ∧
     get_number_of_carns demoLocs
        ((island_migration intParams intParams demoLocs demoMap zeroRand).1)
      = get_number_of_carns demoLocs demoMap) :=
  ⟨⟨by decide, by decide, by decide⟩,
    claim_c1_migration_conserves intParams intParams demoLocs demoMap zeroRand
      (by decide) (by decide) (by decide)⟩

/-- C2: each animal is staged at most once per migration pass.  First: when
the staging loop reaches a cell (any decomposition of the key list around
it), that cell's live populations are exactly its pre-migration ones —
animals staged earlier sit in incoming lists, which `animal_migration`
never reads, and no commit runs before the whole staging loop ends.
Second: the staging phase consumes exactly one migration draw per animal
present in a non-water cell before the phase, so no animal's migration
decision is ever re-examined. -/
theorem claim_c2_single_migration (pH pC : Params) (locs l₁ l₂ : List Loc)
    (loc : Loc) (m : IslandMap) (r : Rand)
    (hsplit : locs = l₁ ++ loc :: l₂) (hnd : locs.Nodup) :
    ((stageLoop pH pC l₁ m r).1 loc).herb_pop = (m loc).herb_pop ∧
    ((stageLoop pH pC l₁ m r).1 loc).carn_pop = (m loc).carn_pop ∧
    ((stageLoop pH pC locs m r).2).qi
      = r.qi + (locs.map (fun l => if (m l).terrain = Terrain.Water then 0
          else (m l).herb_pop.length + (m l).carn_pop.length)).sum := by
  have hnotin : loc ∉ l₁ := by
    subst hsplit
    rw [List.nodup_append] at hnd
    exact fun hmem => hnd.2.2 hmem (List.mem_cons_self loc l₂)
  obtain ⟨h1, h2⟩ := stageLoop_pops_not_mem pH pC l₁ m r loc hnotin
  exact ⟨h1, h2, stageLoop_qi pH pC locs m r hnd⟩

/-- Witness for C2 on the demo island, staged up to the centre cell. -/
theorem claim_c2_single_migration_witness :
    (demoLocs = [((1:ℤ), (1:ℤ)), (1, 2), (1, 3), (2, 1)]
        ++ ((2:ℤ), (2:ℤ)) :: [((2:ℤ), (3:ℤ)), (3, 1), (3, 2), (3, 3)] ∧
     demoLocs.Nodup) ∧
    (((stageLoop intParams intParams [((1:ℤ), (1:ℤ)), (1, 2), (1, 3), (2, 1)]
          demoMap zeroRand).1 ((2:ℤ), (2:ℤ))).herb_pop
        = (demoMap ((2:ℤ), (2:ℤ))).herb_pop ∧
     ((stageLoop intParams intParams [((1:ℤ), (1:ℤ)), (1, 2), (1, 3), (2, 1)]
          demoMap zeroRand).1 ((2:ℤ), (2:ℤ))).carn_pop
        = (demoMap ((2:ℤ), (2:ℤ))).carn_pop ∧
     ((stageLoop intParams intParams demoLocs demoMap zeroRand).2).qi
        = zeroRand.qi + (demoLocs.map (fun l =>
            if (demoMap l).terrain = Terrain.Water then 0
            else (demoMap l).herb_pop.length + (demoMap l).carn_pop.length)).sum) :=
  ⟨⟨by decide, by decide⟩,
    claim_c2_single_migration intParams intParams demoLocs
      [((1:ℤ), (1:ℤ)), (1, 2), (1, 3), (2, 1)]
      [((2:ℤ), (3:ℤ)), (3, 1), (3, 2), (3, 3)]
      ((2:ℤ), (2:ℤ)) demoMap zeroRand (by decide) (by decide)⟩

/-! ## Claim C6: population placement -/

/-- C6, counterexample to the claim as stated: a placement call at the
(habitable, in-bounds) centre holding one valid herbivore record followed
by an unknown species tag fails — but the herbivore appended before the
offending record stays in the cell: prior state is not restored. -/
theorem claim_c6_counterexample :
    ((place_population (fun _ _ _ => 1) intParams intParams demoLocs emptyDemoMap
        [⟨((2:ℤ), (2:ℤ)), [⟨"Herbivore", some 5, some 20⟩, ⟨"Unicorn", some 1, some 1⟩]⟩]
        zeroRand).2.2).isSome = true ∧
    ((place_population (fun _ _ _ => 1) intParams intParams demoLocs emptyDemoMap
        [⟨((2:ℤ), (2:ℤ)), [⟨"Herbivore", some 5, some 20⟩, ⟨"Unicorn", some 1, some 1⟩]⟩]
        zeroRand).1 ((2:ℤ), (2:ℤ))).herb_pop.length = 1 ∧
    (emptyDemoMap ((2:ℤ), (2:ℤ))).herb_pop.length = 0 := by
  refine ⟨by decide, by decide, by decide⟩

/-- A successful `add_population` appends exactly one animal per record to
the matching live list. -/
theorem addPopLoop_ok (fitnessOf : Params → ℚ → ℚ → ℚ) (pH pC : Params) :
    ∀ (animals : List PopRecord) (c : Cell) (r : Rand),
      (addPopLoop fitnessOf pH pC c animals r).2.2 = none →
      ((addPopLoop fitnessOf pH pC c animals r).1).herb_pop.length
        = c.herb_pop.length + (animals.filter (fun pr => pr.species = "Herbivore")).length ∧
      ((addPopLoop fitnessOf pH pC c animals r).1).carn_pop.length
        = c.carn_pop.length + (animals.filter (fun pr => pr.species = "Carnivore")).length := by
  intro animals
  induction animals with
  | nil => intro c r _; simp [addPopLoop]
  | cons pr rest ih =>
    intro c r herr
    by_cases hH : pr.species = "Herbivore"
    · simp only [addPopLoop, if_pos hH] at herr ⊢
      rcases hmk : mkAnimal fitnessOf pH pr.age pr.weight r with ⟨res, r₁⟩
      rw [hmk] at herr
      cases res with
      | error e => simp at herr
      | ok a =>
        dsimp only at herr ⊢
        obtain ⟨ih1, ih2⟩ := ih { c with herb_pop := c.herb_pop ++ [a] } r₁ herr
        have hnC : ¬ pr.species = "Carnivore" := by rw [hH]; decide
        constructor
        · rw [ih1]
          simp [List.filter_cons, hH, List.length_append]
          omega
        · rw [ih2]
          simp [List.filter_cons, hnC]
    · by_cases hC : pr.species = "Carnivore"
      · simp only [addPopLoop, if_neg hH, if_pos hC] at herr ⊢
        rcases hmk : mkAnimal fitnessOf pC pr.age pr.weight r with ⟨res, r₁⟩
        rw [hmk] at herr
        cases res with
        | error e => simp at herr
        | ok a =>
          dsimp only at herr ⊢
          obtain ⟨ih1, ih2⟩ := ih { c with carn_pop := c.carn_pop ++ [a] } r₁ herr
          constructor
          · rw [ih1]
            simp [List.filter_cons, hH]
          · rw [ih2]
            simp [List.filter_cons, hC, List.length_append]
            omega
      · simp only [addPopLoop, if_neg hH, if_neg hC] at herr
        simp at herr

/-- A successful `add_population` call appends exactly the records. -/
theorem add_population_ok (fitnessOf : Params → ℚ → ℚ → ℚ) (pH pC : Params)
    (c : Cell) (animals : List PopRecord) (r : Rand)
    (herr : (add_population fitnessOf pH pC c animals r).2.2 = none) :
    ((add_population fitnessOf pH pC c animals r).1).herb_pop.length
      = c.herb_pop.length + (animals.filter (fun pr => pr.species = "Herbivore")).length ∧
    ((add_population fitnessOf pH pC c animals r).1).carn_pop.length
      = c.carn_pop.length + (animals.filter (fun pr => pr.species = "Carnivore")).length := by
  by_cases hab : c.habitability
  · simp only [add_population, if_pos hab] at herr ⊢
    exact addPopLoop_ok fitnessOf pH pC animals c r herr
  · simp only [add_population, if_neg hab] at herr
    simp at herr

/-- C6, amended: placement is not atomic (see the counterexample: animals
appended before the first offending item survive a failing call), but a
call in which every record is valid succeeds and adds exactly the supplied
individuals: the island-wide count of each species grows by exactly the
number of records of that species. -/
theorem claim_c6_amended (fitnessOf : Params → ℚ → ℚ → ℚ) (pH pC : Params)
    (locs : List Loc) (hnd : locs.Nodup) :
    ∀ (pls : List PopPlacement) (m : IslandMap) (r : Rand),
      (place_population fitnessOf pH pC locs m pls r).2.2 = none →
      get_number_of_herbs locs ((place_population fitnessOf pH pC locs m pls r).1)
        = get_number_of_herbs locs m + herbRecordCount pls ∧
      get_number_of_carns locs ((place_population fitnessOf pH pC locs m pls r).1)
        = get_number_of_carns locs m + carnRecordCount pls := by
  intro pls
  induction pls with
  | nil =>
    intro m r _
    simp [place_population, herbRecordCount, carnRecordCount]
  | cons pl rest ih =>
    intro m r herr
    by_cases hin : pl.loc ∈ locs
    · simp only [place_population, if_pos hin] at herr ⊢
      rcases hadd : (add_population fitnessOf pH pC (m pl.loc) pl.pop r).2.2 with _ | e
      · rw [hadd] at herr
        dsimp only at herr ⊢
        obtain ⟨ihH, ihC⟩ := ih _ _ herr
        rw [ihH, ihC]
        obtain ⟨haH, haC⟩ := add_population_ok fitnessOf pH pC (m pl.loc) pl.pop r hadd
        have hsetH := sum_setCell (fun c => c.herb_pop.length) locs hnd pl.loc hin m
          ((add_population fitnessOf pH pC (m pl.loc) pl.pop r).1)
        have hsetC := sum_setCell (fun c => c.carn_pop.length) locs hnd pl.loc hin m
          ((add_population fitnessOf pH pC (m pl.loc) pl.pop r).1)
        unfold get_number_of_herbs get_number_of_carns
        simp only [herbRecordCount, carnRecordCount, List.map_cons, List.sum_cons]
        constructor
        · have := haH
          omega
        · have := haC
          omega
      · rw [hadd] at herr
        simp at herr
    · simp only [place_population, if_neg hin] at herr
      simp at herr

/-- Witness for C6 (amended): placing two herbivores and one carnivore at
the centre of the empty demo island succeeds and adds exactly them. -/
theorem claim_c6_amended_witness :
    (demoLocs.Nodup ∧
     (place_population (fun _ _ _ => 1) intParams intParams demoLocs emptyDemoMap
        [⟨((2:ℤ), (2:ℤ)), [⟨"Herbivore", some 5, some 20⟩, ⟨"Herbivore", some 3, some 15⟩,
          ⟨"Carnivore", some 4, some 12⟩]⟩] zeroRand).2.2 = none) ∧
    (get_number_of_herbs demoLocs
        ((place_population (fun _ _ _ => 1) intParams intParams demoLocs emptyDemoMap
          [⟨((2:ℤ), (2:ℤ)), [⟨"Herbivore", some 5, some 20⟩, ⟨"Herbivore", some 3, some 15⟩,
            ⟨"Carnivore", some 4, some 12⟩]⟩] zeroRand).1)
      = get_number_of_herbs demoLocs emptyDemoMap
          + herbRecordCount [⟨((2:ℤ), (2:ℤ)), [⟨"Herbivore", some 5, some 20⟩,
              ⟨"Herbivore", some 3, some 15⟩, ⟨"Carnivore", some 4, some 12⟩]⟩] ∧
     get_number_of_carns demoLocs
        ((place_population (fun _ _ _ => 1) intParams intParams demoLocs emptyDemoMap
          [⟨((2:ℤ), (2:ℤ)), [⟨"Herbivore", some 5, some 20⟩, ⟨"Herbivore", some 3, some 15⟩,
            ⟨"Carnivore", some 4, some 12⟩]⟩] zeroRand).1)
      = get_number_of_carns demoLocs emptyDemoMap
          + carnRecordCount [⟨((2:ℤ), (2:ℤ)), [⟨"Herbivore", some 5, some 20⟩,
              ⟨"Herbivore", some 3, some 15⟩, ⟨"Carnivore", some 4, some 12⟩]⟩]) :=
  ⟨⟨by decide, by decide⟩,
    claim_c6_amended (fun _ _ _ => 1) intParams intParams demoLocs (by decide)
      [⟨((2:ℤ), (2:ℤ)), [⟨"Herbivore", some 5, some 20⟩, ⟨"Herbivore", some 3, some 15⟩,
        ⟨"Carnivore", some 4, some 12⟩]⟩] emptyDemoMap zeroRand (by decide)⟩

end BioSim
